import Mathlib

/-!
Shallow embedding of the inventory-ledger and purchase-order workflow of the
L2 warehouse backend (Flask/SQLAlchemy), translated from
`routes/inventory.py`, `routes/barcode.py`, `routes/purchase_orders.py`,
`routes/reports.py` and the table declarations in `models.py`.

Database rows are Lean structures, tables are lists of rows, and each HTTP
mutation handler is a function `DB → args → Except ApiError DB`: the `.ok`
state is the committed transaction, `.error` is the rolled-back request
(no handler commits before an error return, so an error leaves the store
untouched).  Wall-clock timestamps (`datetime.utcnow()`) are passed in as an
explicit `now : Nat` parameter; SQL `DECIMAL` money amounts are modelled as
exact rationals.
-/

namespace Ledger

/-- Error taxonomy of the route handlers: 404, the two flavours of 400, 409
on workflow state, and the dedicated insufficient-stock 400. -/
inductive ApiError where
  | notFound
  | invalidArgument
  | invalidState
  | insufficientStock
  | conflict
  deriving DecidableEq, Repr

/-- Row of the `inventory` table (`models.py`, class `Inventory`):
one quantity per (product, warehouse), with reorder/max levels and a
last-updated timestamp. -/
structure Inventory where
  id : Nat
  productId : Nat
  warehouseId : Nat
  quantity : Int
  reorderLevel : Int
  maxStockLevel : Int
  lastUpdated : Nat
  deriving DecidableEq, Repr

/-- Row of the `stock_movements` table (`models.py`, class `StockMovement`):
the append-only audit record of a quantity change. -/
structure StockMovement where
  productId : Nat
  warehouseId : Nat
  movementType : String
  quantity : Int
  referenceType : Option String
  referenceId : Option Nat
  notes : Option String
  createdAt : Nat
  deriving DecidableEq, Repr

/-- Row of the `purchase_orders` table (`models.py`, class `PurchaseOrder`). -/
structure PurchaseOrder where
  id : Nat
  orderNumber : String
  supplierId : Nat
  status : String
  actualDelivery : Option Nat
  totalAmount : ℚ
  deriving DecidableEq, Repr

/-- Row of the `purchase_order_items` table (`models.py`,
class `PurchaseOrderItem`). -/
structure POItem where
  id : Nat
  purchaseOrderId : Nat
  productId : Nat
  quantity : Int
  unitPrice : ℚ
  receivedQuantity : Int
  deriving DecidableEq, Repr

/-- The persistent store: the tables the core routes touch.  Products and
suppliers only matter through existence of their ids, so they are kept as
id lists.  `nextInvId`, `nextPoId`, `nextPoItemId` model the
database-assigned autoincrement primary keys. -/
structure DB where
  inventories : List Inventory
  movements : List StockMovement
  orders : List PurchaseOrder
  poItems : List POItem
  products : List Nat
  suppliers : List Nat
  nextInvId : Nat
  nextPoId : Nat
  nextPoItemId : Nat
  deriving DecidableEq, Repr

deriving instance DecidableEq for Except

/-- The `filter_by(product_id=..., warehouse_id=...)` row predicate. -/
def isRow (p w : Nat) (i : Inventory) : Bool :=
  i.productId == p && i.warehouseId == w

/-- `Inventory.query.filter_by(product_id=p, warehouse_id=w).first()`. -/
def findInv (db : DB) (p w : Nat) : Option Inventory :=
  db.inventories.find? (isRow p w)

/-- Mutating the ORM object(s) of a (product, warehouse) pair in place. -/
def setRow (l : List Inventory) (p w : Nat) (f : Inventory → Inventory) :
    List Inventory :=
  l.map (fun i => if isRow p w i then f i else i)

/-- The observable on-hand quantity of a pair: the row's quantity, or 0 when
no row exists yet (rows are created lazily with quantity 0). -/
def qtyOf (db : DB) (p w : Nat) : Int :=
  match findInv db p w with
  | some i => i.quantity
  | none => 0

/-- The get-or-create pattern shared by `adjust_inventory`,
`transfer_inventory`, `scan_count`, `scan_receive` and
`receive_purchase_order`: look the row up, and if absent add a fresh row
with quantity 0 and the given reorder/max defaults to the session.
Returns the current row, the resulting table and the next free row id. -/
def getOrCreateInv (db : DB) (p w : Nat) (reorder maxStock : Int) (now : Nat) :
    Inventory × List Inventory × Nat :=
  match findInv db p w with
  | some inv => (inv, db.inventories, db.nextInvId)
  | none =>
    let inv : Inventory := ⟨db.nextInvId, p, w, 0, reorder, maxStock, now⟩
    (inv, db.inventories ++ [inv], db.nextInvId + 1)

/-- Commit semantics: an `.ok` result is the committed new store, an
`.error` result is rolled back (uncommitted session state is discarded at
request teardown), leaving the store as it was. -/
def commit (db : DB) (r : Except ApiError DB) : DB :=
  match r with
  | .ok db2 => db2
  | .error _ => db

/-- `POST /inventory/adjust` (`routes/inventory.py`, `adjust_inventory`):
get-or-create the row, refuse if the delta would drive the quantity
negative, otherwise write the new quantity, stamp `last_updated`, and append
one movement whose quantity is `abs(quantity_change)` and whose type is the
caller-supplied `movement_type` string. -/
def adjustInventory (db : DB) (p w : Nat) (delta : Int) (mtype : String)
    (refType : Option String) (refId : Option Nat) (notes : Option String)
    (reorder maxStock : Int) (now : Nat) : Except ApiError DB :=
  let r := getOrCreateInv db p w reorder maxStock now
  let newQ := r.1.quantity + delta
  if newQ < 0 then
    .error .insufficientStock
  else
    .ok { db with
      inventories :=
        setRow r.2.1 p w (fun i => { i with quantity := newQ, lastUpdated := now }),
      movements := db.movements ++
        [⟨p, w, mtype, |delta|, refType, refId, notes, now⟩],
      nextInvId := r.2.2 }

/-- `POST /inventory/transfer` (`routes/inventory.py`, `transfer_inventory`):
refuse when the source row is missing or its quantity is below the requested
quantity; otherwise get-or-create the destination row, subtract from the
source, add to the destination, and append the `out`/`in` movement pair.
The handler performs no positivity check on the requested quantity and does
not touch `last_updated`. -/
def transferInventory (db : DB) (p fromW toW : Nat) (q : Int) (now : Nat) :
    Except ApiError DB :=
  match findInv db p fromW with
  | none => .error .insufficientStock
  | some src =>
    if src.quantity < q then
      .error .insufficientStock
    else
      let r := getOrCreateInv db p toW 10 1000 now
      let invs1 := setRow r.2.1 p fromW (fun i => { i with quantity := i.quantity - q })
      let invs2 := setRow invs1 p toW (fun i => { i with quantity := i.quantity + q })
      .ok { db with
        inventories := invs2,
        nextInvId := r.2.2,
        movements := db.movements ++
          [⟨p, fromW, "out", q, some "transfer", none,
             some ("Transfer to warehouse " ++ toString toW), now⟩,
           ⟨p, toW, "in", q, some "transfer", none,
             some ("Transfer from warehouse " ++ toString fromW), now⟩] }

/-- `POST /barcode/scan-count` (`routes/barcode.py`, `scan_count`): reject a
negative counted quantity, 404 on an unknown product, get-or-create the row,
set its quantity to the counted value, stamp `last_updated`, and append one
`adjustment` movement of magnitude `abs(counted - old)` only when the
adjustment is nonzero.  The product is identified by barcode in the route;
the lookup result is modelled by the product id. -/
def scanCount (db : DB) (p w : Nat) (counted : Int) (now : Nat) :
    Except ApiError DB :=
  if counted < 0 then
    .error .invalidArgument
  else if !db.products.contains p then
    .error .notFound
  else
    let r := getOrCreateInv db p w 10 1000 now
    let adjustment := counted - r.1.quantity
    let invs2 :=
      setRow r.2.1 p w (fun i => { i with quantity := counted, lastUpdated := now })
    let movs :=
      if adjustment = 0 then db.movements
      else db.movements ++
        [⟨p, w, "adjustment", |adjustment|, some "barcode_count", none,
           some ("Stock count adjustment. Old: " ++ toString r.1.quantity ++
             ", New: " ++ toString counted), now⟩]
    .ok { db with inventories := invs2, movements := movs, nextInvId := r.2.2 }

/-- `PUT /inventory/<id>` (`routes/inventory.py`, `update_inventory_item`):
look the row up by primary key and overwrite whichever of the three
updatable fields the caller supplied.  No stock movement is recorded. -/
def updateInventoryItem (db : DB) (invId : Nat)
    (q reorder maxStock : Option Int) : Except ApiError DB :=
  match db.inventories.find? (fun i => i.id == invId) with
  | none => .error .notFound
  | some _ =>
    .ok { db with
      inventories := db.inventories.map (fun i =>
        if i.id == invId then
          { i with
            quantity := q.getD i.quantity,
            reorderLevel := reorder.getD i.reorderLevel,
            maxStockLevel := maxStock.getD i.maxStockLevel }
        else i) }

/-- `PurchaseOrder.query.get(poId)`. -/
def findOrder (db : DB) (poId : Nat) : Option PurchaseOrder :=
  db.orders.find? (fun o => o.id == poId)

/-- `PurchaseOrderItem.query.get(itemId)`. -/
def findPOItem (db : DB) (itemId : Nat) : Option POItem :=
  db.poItems.find? (fun it => it.id == itemId)

/-- The order's current status, when the order exists. -/
def statusOf (db : DB) (poId : Nat) : Option String :=
  (findOrder db poId).map (fun o => o.status)

/-- One entry of the `received_items` list of the receive request body. -/
structure ReceivedLine where
  poItemId : Nat
  receivedQuantity : Int
  deriving DecidableEq, Repr

/-- One iteration of the `received_items` loop of `receive_purchase_order`
(`routes/purchase_orders.py`): skip falsy item ids and non-positive
quantities, skip items that do not exist or belong to another order;
otherwise increment the item's `received_quantity`, get-or-create the
destination inventory row, add the received quantity to it, and append one
`in` movement referencing the purchase order. -/
def receiveLine (poId wId : Nat) (orderNumber : String) (now : Nat)
    (db : DB) (line : ReceivedLine) : DB :=
  if line.poItemId == 0 || line.receivedQuantity ≤ 0 then db
  else
    match findPOItem db line.poItemId with
    | none => db
    | some item =>
      if item.purchaseOrderId ≠ poId then db
      else
        let db1 := { db with
          poItems := db.poItems.map (fun it =>
            if it.id == line.poItemId then
              { it with receivedQuantity := it.receivedQuantity + line.receivedQuantity }
            else it) }
        let r := getOrCreateInv db1 item.productId wId 10 1000 now
        { db1 with
          inventories :=
            setRow r.2.1 item.productId wId
              (fun i => { i with quantity := i.quantity + line.receivedQuantity }),
          nextInvId := r.2.2,
          movements := db1.movements ++
            [⟨item.productId, wId, "in", line.receivedQuantity,
               some "purchase_order", some poId,
               some ("Received from PO " ++ orderNumber), now⟩] }

/-- The items of one order (the `purchase_order.items` relationship). -/
def itemsOf (db : DB) (poId : Nat) : List POItem :=
  db.poItems.filter (fun it => it.purchaseOrderId == poId)

/-- `POST /purchase-orders/<id>/receive` (`routes/purchase_orders.py`,
`receive_purchase_order`): 404 on a missing order, 409 unless the status is
`approved` or `ordered`, 400 on a falsy warehouse id or empty line list;
then fold the per-line processing over the received lines, and if afterwards
every item of the order has `received_quantity >= quantity`, set the status
to `received` and stamp `actual_delivery`. -/
def receivePurchaseOrder (db : DB) (poId wId : Nat)
    (lines : List ReceivedLine) (now : Nat) : Except ApiError DB :=
  match findOrder db poId with
  | none => .error .notFound
  | some po =>
    if po.status ≠ "approved" ∧ po.status ≠ "ordered" then
      .error .invalidState
    else if wId == 0 || lines.isEmpty then
      .error .invalidArgument
    else
      let db1 := lines.foldl (receiveLine poId wId po.orderNumber now) db
      let allReceived :=
        (itemsOf db1 poId).all (fun it => it.quantity ≤ it.receivedQuantity)
      if allReceived then
        .ok { db1 with orders := db1.orders.map (fun o =>
          if o.id == poId then
            { o with status := "received", actualDelivery := some now }
          else o) }
      else
        .ok db1

/-- `POST /purchase-orders/<id>/cancel` (`routes/purchase_orders.py`,
`cancel_purchase_order`): 404 on a missing order, 409 when the status is
`received` or `cancelled`, otherwise set the status to `cancelled`.  Nothing
else is touched. -/
def cancelPurchaseOrder (db : DB) (poId : Nat) : Except ApiError DB :=
  match findOrder db poId with
  | none => .error .notFound
  | some po =>
    if po.status = "received" ∨ po.status = "cancelled" then
      .error .invalidState
    else
      .ok { db with orders := db.orders.map (fun o =>
        if o.id == poId then { o with status := "cancelled" } else o) }

/-- One entry of the `items` list of the create-purchase-order request. -/
structure NewPOItem where
  productId : Nat
  quantity : Int
  unitPrice : ℚ
  deriving DecidableEq, Repr

/-- The item loop of `create_purchase_order`: for each requested item,
400 when product id, quantity or unit price is falsy (zero), 404 when the
product id is unknown, otherwise build its row and accumulate
`quantity * unit_price` into the total. -/
def buildItems (products : List Nat) (poId : Nat) (nextItemId : Nat) :
    List NewPOItem → Except ApiError (List POItem × ℚ)
  | [] => .ok ([], 0)
  | it :: rest =>
    if it.productId == 0 || it.quantity == 0 || it.unitPrice == 0 then
      .error .invalidArgument
    else if !products.contains it.productId then
      .error .notFound
    else
      match buildItems products poId (nextItemId + 1) rest with
      | .error e => .error e
      | .ok (items, total) =>
        .ok (⟨nextItemId, poId, it.productId, it.quantity, it.unitPrice, 0⟩ :: items,
          (it.quantity : ℚ) * it.unitPrice + total)

/-- `POST /purchase-orders` (`routes/purchase_orders.py`,
`create_purchase_order`): 400 when supplier id or items list is falsy, 404
on an unknown supplier, then the item loop; on success the order is stored
with status `pending` and `total_amount` equal to the accumulated total.
The generated order number (date stamp plus random suffix) is passed in as
a parameter. -/
def createPurchaseOrder (db : DB) (supplierId : Nat) (items : List NewPOItem)
    (orderNumber : String) : Except ApiError DB :=
  if supplierId == 0 || items.isEmpty then
    .error .invalidArgument
  else if !db.suppliers.contains supplierId then
    .error .notFound
  else
    match buildItems db.products db.nextPoId db.nextPoItemId items with
    | .error e => .error e
    | .ok (pois, total) =>
      .ok { db with
        orders := db.orders ++
          [⟨db.nextPoId, orderNumber, supplierId, "pending", none, total⟩],
        poItems := db.poItems ++ pois,
        nextPoId := db.nextPoId + 1,
        nextPoItemId := db.nextPoItemId + pois.length }

/-- The movements of one (product, warehouse) pair, in insertion order. -/
def movementsFor (db : DB) (p w : Nat) : List StockMovement :=
  db.movements.filter (fun m => m.productId == p && m.warehouseId == w)

/-- The signed contribution of a movement to the on-hand quantity, by its
type: `in` counts positively, `out` negatively. -/
def signedQty (m : StockMovement) : Int :=
  if m.movementType = "in" then m.quantity
  else if m.movementType = "out" then -m.quantity
  else 0

/-- The signed sum of the recorded movements of a pair. -/
def signedSum (db : DB) (p w : Nat) : Int :=
  ((movementsFor db p w).map signedQty).sum

/-- The ledger invariant of the spec: the recorded movements of a pair
reconcile to its current on-hand quantity. -/
def reconciles (db : DB) (p w : Nat) : Prop :=
  qtyOf db p w = signedSum db p w

instance (db : DB) (p w : Nat) : Decidable (reconciles db p w) := by
  unfold reconciles; infer_instance

/-- One call of an `adjust` sequence on a fixed (product, warehouse) pair:
the signed delta, the caller-supplied movement type and the call's
timestamp; the remaining request fields take the route defaults. -/
structure AdjustCall where
  delta : Int
  movementType : String
  now : Nat
  deriving DecidableEq, Repr

/-- Running one adjust call against the store (committing on success,
rolling back on error). -/
def stepAdjust (p w : Nat) (db : DB) (c : AdjustCall) : DB :=
  commit db (adjustInventory db p w c.delta c.movementType none none none 10 1000 c.now)

/-- Running a sequence of adjust calls on one pair. -/
def runAdjusts (p w : Nat) (db : DB) (calls : List AdjustCall) : DB :=
  calls.foldl (stepAdjust p w) db

/-- Whether every call of the sequence succeeds (none is rejected for
insufficient stock). -/
def adjustsSucceed (p w : Nat) (db : DB) : List AdjustCall → Bool
  | [] => true
  | c :: rest =>
    (adjustInventory db p w c.delta c.movementType none none none 10 1000 c.now).isOk
      && adjustsSucceed p w (stepAdjust p w db c) rest

/-- A movement type consistent with the sign of the delta it records:
`in` for a non-negative delta, `out` for a negative one. -/
def typeMatchesSign (c : AdjustCall) : Prop :=
  (0 ≤ c.delta ∧ c.movementType = "in") ∨ (c.delta < 0 ∧ c.movementType = "out")

instance (c : AdjustCall) : Decidable (typeMatchesSign c) := by
  unfold typeMatchesSign; infer_instance

/-- Half-to-even integer rounding on exact rationals, the idealisation of
Python's `round` on the float turnover rate. -/
def roundHalfEven (x : ℚ) : ℤ :=
  if x - ⌊x⌋ < 1 / 2 then ⌊x⌋
  else if 1 / 2 < x - ⌊x⌋ then ⌊x⌋ + 1
  else if ⌊x⌋ % 2 = 0 then ⌊x⌋ else ⌊x⌋ + 1

/-- Python's `round(x, 2)`. -/
def round2 (x : ℚ) : ℚ := (roundHalfEven (100 * x) : ℚ) / 100

/-- One row of the inventory-turnover report
(`routes/reports.py`, `get_inventory_turnover`). -/
structure TurnoverRow where
  productId : Nat
  totalMovement : Int
  avgInventory : ℚ
  turnoverRate : ℚ
  deriving DecidableEq, Repr

/-- The product's `out` movements inside the trailing window (the filters
of the turnover query: `movement_type == 'out'` and
`created_at >= start_date`). -/
def outMovements (db : DB) (start : Nat) (p : Nat) : List StockMovement :=
  db.movements.filter
    (fun m => m.productId == p && m.movementType == "out" && start ≤ m.createdAt)

/-- All inventory rows of a product (the turnover query joins `Inventory`
on the product id alone, with no warehouse or date restriction). -/
def invRowsOf (db : DB) (p : Nat) : List Inventory :=
  db.inventories.filter (fun i => i.productId == p)

/-- One group of the turnover query: the SQL join pairs every qualifying
movement of the product with every inventory row of the product, then
aggregates `SUM(StockMovement.quantity)` and `AVG(Inventory.quantity)`
over the joined rows.  Products with no qualifying movement or no inventory
row produce no group (inner joins).  The rate is total over average when
the average is positive, else 0, rounded to two decimals. -/
def turnoverRow (db : DB) (start : Nat) (p : Nat) : Option TurnoverRow :=
  let ms := outMovements db start p
  let is' := invRowsOf db p
  let pairs := ms.flatMap (fun m => is'.map (fun i => (m, i)))
  if pairs.isEmpty then none
  else
    let total := (pairs.map (fun mi => mi.1.quantity)).sum
    let avg : ℚ := (pairs.map (fun mi => (mi.2.quantity : ℚ))).sum / pairs.length
    let rate : ℚ := if 0 < avg then (total : ℚ) / avg else 0
    some ⟨p, total, avg, round2 rate⟩

/-- `GET /reports/inventory-turnover`: one row per product of the grouped
join, sorted by turnover rate in descending order (Python's stable
`sort(..., reverse=True)`, realised as a stable merge sort on the
reversed order). -/
def inventoryTurnover (db : DB) (start : Nat) : List TurnoverRow :=
  (db.products.filterMap (turnoverRow db start)).mergeSort
    (fun a b => b.turnoverRate ≤ a.turnoverRate)

/-- Modelled from the spec: the turnover rate the spec sentence asserts,
`totalOutQuantity / averageInventoryQuantity` (0 when the average is 0),
where `totalOutQuantity` is the summed quantity of the product's `out`
movements in the window and `averageInventoryQuantity` is the plain average
of the product's inventory-row quantities.  Used only to compare against
the rate the code computes. -/
def claimedTurnoverRate (db : DB) (start : Nat) (p : Nat) : ℚ :=
  let total := ((outMovements db start p).map (fun m => m.quantity)).sum
  let avg : ℚ :=
    ((invRowsOf db p).map (fun i => (i.quantity : ℚ))).sum / (invRowsOf db p).length
  if 0 < avg then (total : ℚ) / avg else 0

/-- A receive request: the order, the destination warehouse, the received
lines and the call's timestamp. -/
structure ReceiveCall where
  poId : Nat
  wId : Nat
  lines : List ReceivedLine
  now : Nat
  deriving DecidableEq, Repr

/-- Running one receive call (committing on success, rolling back on
error). -/
def stepReceive (db : DB) (c : ReceiveCall) : DB :=
  commit db (receivePurchaseOrder db c.poId c.wId c.lines c.now)

/-- Running a sequence of receive calls. -/
def runReceives (db : DB) (calls : List ReceiveCall) : DB :=
  calls.foldl stepReceive db

/-- The received quantity recorded on one order item (0 when the item does
not exist). -/
def receivedOf (db : DB) (itemId : Nat) : Int :=
  match findPOItem db itemId with
  | some it => it.receivedQuantity
  | none => 0

/-- The actual-delivery stamp of one order, when the order exists. -/
def actualDeliveryOf (db : DB) (poId : Nat) : Option (Option Nat) :=
  (findOrder db poId).map (fun o => o.actualDelivery)

/-- The persistent content of the (product, warehouse) row: quantity,
reorder level and max stock level, i.e. every `StockLevel` attribute other
than the `last_updated` stamp. -/
def rowContent (db : DB) (p w : Nat) : Option (Int × Int × Int) :=
  (findInv db p w).map (fun i => (i.quantity, i.reorderLevel, i.maxStockLevel))

/-- Running one stock count. -/
def runScanCount (p w : Nat) (counted : Int) (now : Nat) (db : DB) : DB :=
  commit db (scanCount db p w counted now)

/-- The empty store. -/
def dbEmpty : DB := ⟨[], [], [], [], [], [], 1, 1, 1⟩

/-- A store with one inventory row: product 1 in warehouse 1, quantity 5. -/
def dbOneRow : DB :=
  { dbEmpty with inventories := [⟨1, 1, 1, 5, 10, 1000, 0⟩], products := [1] }

/-- A store with product 1 at quantity 0 in warehouse 1 and no row for
warehouse 2. -/
def dbZeroRow : DB :=
  { dbEmpty with inventories := [⟨1, 1, 1, 0, 10, 1000, 0⟩], products := [1] }

/-- A store with one approved purchase order (order 1, supplier 1) over a
single item: item 1, product 1, ordered quantity 10 at unit price 5. -/
def dbOrder : DB :=
  { dbEmpty with
    products := [1], suppliers := [1],
    orders := [⟨1, "PO-1", 1, "approved", none, 50⟩],
    poItems := [⟨1, 1, 1, 10, 5, 0⟩],
    nextPoId := 2, nextPoItemId := 2 }

/-- A store with supplier 1 and product 1 and nothing else, for exercising
purchase-order creation. -/
def dbCatalog : DB := { dbEmpty with products := [1], suppliers := [1] }

/-- A store where product 1 has two inventory rows (quantity 10 in each of
warehouses 1 and 2) and a single `out` movement of quantity 5. -/
def dbTwoWarehouses : DB :=
  { dbEmpty with
    products := [1],
    inventories := [⟨1, 1, 1, 10, 10, 1000, 0⟩, ⟨2, 1, 2, 10, 10, 1000, 0⟩],
    movements := [⟨1, 1, "out", 5, none, none, none, 5⟩],
    nextInvId := 3 }

/-- A store where the ledger invariant holds for (product 1, warehouse 1):
quantity 5 backed by one `in` movement of quantity 5. -/
def dbReconciled : DB :=
  { dbEmpty with
    products := [1],
    inventories := [⟨1, 1, 1, 5, 10, 1000, 0⟩],
    movements := [⟨1, 1, "in", 5, none, none, none, 0⟩],
    nextInvId := 2 }

/-- The row update a stock count performs. -/
def countUpd (counted : Int) (now : Nat) (i : Inventory) : Inventory :=
  { i with quantity := counted, lastUpdated := now }

/-- The store of `dbOrder` after receiving the full ordered quantity of
item 1 into warehouse 1. -/
def dbOrderReceived : DB :=
  commit dbOrder (receivePurchaseOrder dbOrder 1 1 [⟨1, 10⟩] 0)

/-- The store of `dbCatalog` after creating an order of 2 units of
product 1 at unit price 3. -/
def dbCatalogPO : DB :=
  commit dbCatalog (createPurchaseOrder dbCatalog 1 [⟨1, 2, 3⟩] "PO-W8")

/-! ### Helper lemmas -/

/-- `find?` commutes with an in-place map that does not change which rows
satisfy the predicate. -/
theorem find?_map_pred {α : Type} (l : List α) (g : α → α) (q : α → Bool)
    (hg : ∀ a, q (g a) = q a) : (l.map g).find? q = (l.find? q).map g := by
  have hq : q ∘ g = q := funext hg
  rw [List.find?_map, hq]

/-- An update guarded by the row predicate preserves the predicate whenever
the update function keeps the key fields. -/
theorem isRow_guard (p w p' w' : Nat) (f : Inventory → Inventory)
    (hf : ∀ i, (f i).productId = i.productId ∧ (f i).warehouseId = i.warehouseId)
    (i : Inventory) :
    isRow p' w' (if isRow p w i then f i else i) = isRow p' w' i := by
  by_cases h : isRow p w i
  · simp only [isRow] at h ⊢
    simp [h, (hf i).1, (hf i).2]
  · simp [h]

/-- Looking the updated pair up after `setRow` finds the updated row. -/
theorem find?_setRow_self (l : List Inventory) (p w : Nat)
    (f : Inventory → Inventory)
    (hf : ∀ i, (f i).productId = i.productId ∧ (f i).warehouseId = i.warehouseId) :
    (setRow l p w f).find? (isRow p w) = ((l.find? (isRow p w)).map f) := by
  unfold setRow
  rw [find?_map_pred _ _ _ (isRow_guard p w p w f hf)]
  cases h : l.find? (isRow p w) with
  | none => rfl
  | some i =>
    have hi : isRow p w i = true := List.find?_some h
    simp [hi]

/-- Looking a different pair up after `setRow` is unaffected. -/
theorem find?_setRow_other (l : List Inventory) (p w p' w' : Nat)
    (f : Inventory → Inventory)
    (hf : ∀ i, (f i).productId = i.productId ∧ (f i).warehouseId = i.warehouseId)
    (hne : p ≠ p' ∨ w ≠ w') :
    (setRow l p w f).find? (isRow p' w') = l.find? (isRow p' w') := by
  unfold setRow
  rw [find?_map_pred _ _ _ (isRow_guard p w p' w' f hf)]
  cases h : l.find? (isRow p' w') with
  | none => rfl
  | some i =>
    have hi : isRow p' w' i = true := List.find?_some h
    have h1 : i.productId = p' ∧ i.warehouseId = w' := by
      simpa [isRow] using hi
    have h2 : isRow p w i = false := by
      simp only [isRow, h1.1, h1.2]
      rcases hne with hne | hne <;> simp [beq_iff_eq, Ne.symm hne]
    simp [h2]

/-- Two guarded in-place updates of the same pair compose. -/
theorem setRow_setRow (l : List Inventory) (p w : Nat)
    (f g : Inventory → Inventory)
    (hf : ∀ i, (f i).productId = i.productId ∧ (f i).warehouseId = i.warehouseId) :
    setRow (setRow l p w f) p w g = setRow l p w (fun i => g (f i)) := by
  unfold setRow
  rw [List.map_map]
  apply List.map_congr_left
  intro i _
  by_cases h : isRow p w i
  · have : isRow p w (f i) = true := by
      simp only [isRow, (hf i).1, (hf i).2]
      simpa [isRow] using h
    simp [h, this]
  · simp [h]

/-- The row returned by get-or-create carries the observable quantity of
the pair (0 for a freshly created row). -/
theorem getOrCreateInv_fst_quantity (db : DB) (p w : Nat)
    (reorder maxStock : Int) (now : Nat) :
    (getOrCreateInv db p w reorder maxStock now).1.quantity = qtyOf db p w := by
  unfold getOrCreateInv qtyOf
  cases findInv db p w <;> rfl

/-- C2: an `adjust` whose delta would drive the pair's quantity negative is
rejected with the insufficient-stock error, and the rolled-back request
leaves the store — inventory rows (including any lazily created one) and
movement history — exactly as it was. -/
theorem C2_adjust_insufficient_rolls_back (db : DB) (p w : Nat) (delta : Int)
    (mtype : String) (refType : Option String) (refId : Option Nat)
    (notes : Option String) (reorder maxStock : Int) (now : Nat)
    (h : qtyOf db p w + delta < 0) :
    adjustInventory db p w delta mtype refType refId notes reorder maxStock now
      = .error .insufficientStock ∧
    commit db
      (adjustInventory db p w delta mtype refType refId notes reorder maxStock now)
      = db := by
  have he : adjustInventory db p w delta mtype refType refId notes reorder maxStock now
      = .error .insufficientStock := by
    simp only [adjustInventory]
    rw [getOrCreateInv_fst_quantity db p w reorder maxStock now]
    simp [h]
  exact ⟨he, by rw [he]; rfl⟩

/-- Witness for C2 at a concrete store: warehouse 1 holds 5 of product 1,
and an adjust of −6 is rejected and leaves the store unchanged. -/
theorem C2_witness :
    adjustInventory dbOneRow 1 1 (-6) "out" none none none 10 1000 7
      = .error .insufficientStock ∧
    commit dbOneRow
      (adjustInventory dbOneRow 1 1 (-6) "out" none none none 10 1000 7)
      = dbOneRow :=
  C2_adjust_insufficient_rolls_back dbOneRow 1 1 (-6) "out" none none none
    10 1000 7 (by decide)

/-- C3 fails as stated: with no StockLevel row for the source pair the
handler rejects the transfer outright, even when the requested quantity is
not positive — here A holds 0 of the product (no row), n = 0, so A's
quantity is at least n and the claim demands success, yet the code returns
the insufficient-stock error. -/
theorem C3_counterexample :
    findInv dbEmpty 1 1 = none ∧
    (0 : Int) ≤ qtyOf dbEmpty 1 1 ∧
    transferInventory dbEmpty 1 1 2 0 0 = .error .insufficientStock := by
  decide

/-- C3 (amended): for a transfer between two distinct warehouses, the
operation is rejected with the insufficient-stock error and no state change
when the source row is missing or its quantity is below `n`; when a source
row exists with quantity at least `n`, the source decreases by exactly `n`,
the destination increases by exactly `n`, and exactly the `out`/`in`
movement pair is appended. -/
theorem C3_transfer_correct (db : DB) (p A B : Nat) (n : Int) (now : Nat)
    (hAB : A ≠ B) :
    ((findInv db p A = none ∨ qtyOf db p A < n) →
      transferInventory db p A B n now = .error .insufficientStock ∧
      commit db (transferInventory db p A B n now) = db) ∧
    (∀ src, findInv db p A = some src → n ≤ src.quantity →
      ∃ db', transferInventory db p A B n now = .ok db' ∧
        qtyOf db' p A = qtyOf db p A - n ∧
        qtyOf db' p B = qtyOf db p B + n ∧
        db'.movements = db.movements ++
          [⟨p, A, "out", n, some "transfer", none,
             some ("Transfer to warehouse " ++ toString B), now⟩,
           ⟨p, B, "in", n, some "transfer", none,
             some ("Transfer from warehouse " ++ toString A), now⟩]) := by
  have hsub : ∀ i : Inventory,
      (({ i with quantity := i.quantity - n } : Inventory)).productId = i.productId ∧
      (({ i with quantity := i.quantity - n } : Inventory)).warehouseId = i.warehouseId :=
    fun i => ⟨rfl, rfl⟩
  have hadd : ∀ i : Inventory,
      (({ i with quantity := i.quantity + n } : Inventory)).productId = i.productId ∧
      (({ i with quantity := i.quantity + n } : Inventory)).warehouseId = i.warehouseId :=
    fun i => ⟨rfl, rfl⟩
  constructor
  · intro h
    have he : transferInventory db p A B n now = .error .insufficientStock := by
      cases hsrc : findInv db p A with
      | none => simp only [transferInventory, hsrc]
      | some src =>
        have hlt : src.quantity < n := by
          rcases h with hnone | hlt
          · rw [hsrc] at hnone
            exact absurd hnone (by simp)
          · unfold qtyOf at hlt
            rw [hsrc] at hlt
            exact hlt
        simp only [transferInventory, hsrc]
        rw [if_pos hlt]
    exact ⟨he, by rw [he]; rfl⟩
  · intro src hsrc hge
    have hq : qtyOf db p A = src.quantity := by
      unfold qtyOf
      rw [hsrc]
    simp only [transferInventory, hsrc]
    rw [if_neg (not_lt.mpr hge)]
    refine ⟨_, rfl, ?_, ?_, rfl⟩
    · -- the source pair: unaffected by the destination update, then −n
      show qtyOf _ p A = qtyOf db p A - n
      unfold qtyOf findInv
      rw [find?_setRow_other _ p B p A _ hadd (Or.inr (Ne.symm hAB)),
        find?_setRow_self _ p A _ hsub]
      cases hdst : findInv db p B with
      | some dst =>
        simp only [getOrCreateInv, hdst]
        unfold findInv at hsrc
        rw [hsrc]
        simp
      | none =>
        simp only [getOrCreateInv, hdst]
        unfold findInv at hsrc
        rw [List.find?_append, hsrc]
        simp
    · -- the destination pair: unaffected by the source update, then +n
      show qtyOf _ p B = qtyOf db p B + n
      unfold qtyOf findInv
      rw [find?_setRow_self _ p B _ hadd,
        find?_setRow_other _ p A p B _ hsub (Or.inr hAB)]
      cases hdst : findInv db p B with
      | some dst =>
        simp only [getOrCreateInv, hdst]
        unfold findInv at hdst
        rw [hdst]
        simp
      | none =>
        simp only [getOrCreateInv, hdst]
        unfold findInv at hdst
        rw [List.find?_append, hdst]
        simp [isRow]

/-- Witness for C3 (amended) at concrete stores: a transfer with no source
row (and n = 0) is rejected and leaves the empty store unchanged, and a
transfer of 3 from a warehouse holding 5 moves exactly 3 to warehouse 2 and
appends the movement pair. -/
theorem C3_witness :
    (transferInventory dbEmpty 1 1 2 0 0 = .error .insufficientStock ∧
      commit dbEmpty (transferInventory dbEmpty 1 1 2 0 0) = dbEmpty) ∧
    ∃ db', transferInventory dbOneRow 1 1 2 3 0 = .ok db' ∧
      qtyOf db' 1 1 = qtyOf dbOneRow 1 1 - 3 ∧
      qtyOf db' 1 2 = qtyOf dbOneRow 1 2 + 3 ∧
      db'.movements = dbOneRow.movements ++
        [⟨1, 1, "out", 3, some "transfer", none,
           some ("Transfer to warehouse " ++ toString 2), 0⟩,
         ⟨1, 2, "in", 3, some "transfer", none,
           some ("Transfer from warehouse " ++ toString 1), 0⟩] := by
  obtain ⟨he, _⟩ := C3_transfer_correct dbEmpty 1 1 2 0 0 (by decide)
  obtain ⟨_, hs⟩ := C3_transfer_correct dbOneRow 1 1 2 3 0 (by decide)
  exact ⟨he (Or.inl (by decide)),
    hs ⟨1, 1, 1, 5, 10, 1000, 0⟩ (by decide) (by decide)⟩

/-- C7: cancelling an order that is already `received` or `cancelled` is
rejected with no state change; cancelling any other existing order only
sets its status to `cancelled`, leaving every inventory row, the movement
history and the order items untouched (received stock is not reversed). -/
theorem C7_cancel_correct (db : DB) (poId : Nat) (po : PurchaseOrder)
    (hpo : findOrder db poId = some po) :
    ((po.status = "received" ∨ po.status = "cancelled") →
      cancelPurchaseOrder db poId = .error .invalidState ∧
      commit db (cancelPurchaseOrder db poId) = db) ∧
    (po.status ≠ "received" → po.status ≠ "cancelled" →
      ∃ db', cancelPurchaseOrder db poId = .ok db' ∧
        statusOf db' poId = some "cancelled" ∧
        db'.inventories = db.inventories ∧
        db'.movements = db.movements ∧
        db'.poItems = db.poItems) := by
  constructor
  · intro h
    have he : cancelPurchaseOrder db poId = .error .invalidState := by
      simp only [cancelPurchaseOrder, hpo]
      rw [if_pos h]
    exact ⟨he, by rw [he]; rfl⟩
  · intro h1 h2
    simp only [cancelPurchaseOrder, hpo]
    rw [if_neg (by tauto)]
    refine ⟨_, rfl, ?_, rfl, rfl, rfl⟩
    unfold statusOf findOrder
    rw [find?_map_pred _ _ _ (fun o => by by_cases h : o.id == poId <;> simp [h])]
    unfold findOrder at hpo
    rw [hpo]
    have hid : po.id = poId := by simpa using List.find?_some hpo
    simp [hid]

/-- Witness for C7 at a concrete store: order 1 is `approved`, so cancel
succeeds, sets the status to `cancelled` and touches nothing else. -/
theorem C7_witness :
    (((⟨1, "PO-1", 1, "approved", none, 50⟩ : PurchaseOrder).status = "received" ∨
      (⟨1, "PO-1", 1, "approved", none, 50⟩ : PurchaseOrder).status = "cancelled") →
      cancelPurchaseOrder dbOrder 1 = .error .invalidState ∧
      commit dbOrder (cancelPurchaseOrder dbOrder 1) = dbOrder) ∧
    ((⟨1, "PO-1", 1, "approved", none, 50⟩ : PurchaseOrder).status ≠ "received" →
     (⟨1, "PO-1", 1, "approved", none, 50⟩ : PurchaseOrder).status ≠ "cancelled" →
      ∃ db', cancelPurchaseOrder dbOrder 1 = .ok db' ∧
        statusOf db' 1 = some "cancelled" ∧
        db'.inventories = dbOrder.inventories ∧
        db'.movements = dbOrder.movements ∧
        db'.poItems = dbOrder.poItems) :=
  C7_cancel_correct dbOrder 1 ⟨1, "PO-1", 1, "approved", none, 50⟩ (by decide)

/-- C10: the direct inventory update (PUT) overwrites the row's quantity
with any caller-supplied value while appending no stock movement, and this
breaks the movements-reconcile-to-quantity invariant: at a concrete
reconciled store, setting the quantity to 0 leaves the single `in 5`
movement in place and the invariant no longer holds. -/
theorem C10_update_bypasses_ledger (db : DB) (invId : Nat) (v : Int)
    (reorder maxStock : Option Int) (inv : Inventory)
    (hfind : db.inventories.find? (fun i => i.id == invId) = some inv) :
    (∃ db', updateInventoryItem db invId (some v) reorder maxStock = .ok db' ∧
      db'.movements = db.movements ∧
      (db'.inventories.find? (fun i => i.id == invId)).map (fun i => i.quantity)
        = some v) ∧
    (reconciles dbReconciled 1 1 ∧
      ¬ reconciles
        (commit dbReconciled (updateInventoryItem dbReconciled 1 (some 0) none none))
        1 1) := by
  constructor
  · simp only [updateInventoryItem, hfind]
    refine ⟨_, rfl, rfl, ?_⟩
    rw [find?_map_pred _ _ _ (fun i => by by_cases h : i.id == invId <;> simp [h])]
    rw [hfind]
    have hid : inv.id = invId := by simpa using List.find?_some hfind
    simp [hid]
  · exact ⟨by decide, by decide⟩

/-- Witness for C10 at a concrete store: row 1 of the one-row store is
overwritten to quantity 7 with no movement recorded. -/
theorem C10_witness :
    (∃ db', updateInventoryItem dbOneRow 1 (some 7) none none = .ok db' ∧
      db'.movements = dbOneRow.movements ∧
      (db'.inventories.find? (fun i => i.id == 1)).map (fun i => i.quantity)
        = some 7) ∧
    (reconciles dbReconciled 1 1 ∧
      ¬ reconciles
        (commit dbReconciled (updateInventoryItem dbReconciled 1 (some 0) none none))
        1 1) :=
  C10_update_bypasses_ledger dbOneRow 1 7 none none ⟨1, 1, 1, 5, 10, 1000, 0⟩
    (by decide)

/-- C4 fails on the code: `transfer_inventory` never validates that the
requested quantity is positive, so transferring −3 of product 1 from
warehouse 1 (which holds 0, and 0 < −3 is false) succeeds and drives the
lazily created destination row of warehouse 2 to quantity −3. -/
theorem C4_negative_transfer_quantity :
    (transferInventory dbZeroRow 1 1 2 (-3) 0).isOk = true ∧
    qtyOf (commit dbZeroRow (transferInventory dbZeroRow 1 1 2 (-3) 0)) 1 2 = -3 := by
  decide

theorem countUpd_pres (counted : Int) (now : Nat) (i : Inventory) :
    (countUpd counted now i).productId = i.productId ∧
    (countUpd counted now i).warehouseId = i.warehouseId :=
  ⟨rfl, rfl⟩

theorem countUpd_idem (counted : Int) (now : Nat) (i : Inventory) :
    countUpd counted now (countUpd counted now i) = countUpd counted now i := by
  cases i
  rfl

/-- The committed store of one successful stock count, split by whether the
(product, warehouse) row already existed. -/
theorem runScanCount_eq_of_found (db : DB) (p w : Nat) (counted : Int)
    (now : Nat) (hneg : ¬ counted < 0) (hp : db.products.contains p = true)
    (inv : Inventory) (hrow : findInv db p w = some inv) :
    runScanCount p w counted now db = { db with
      inventories := setRow db.inventories p w (countUpd counted now),
      movements :=
        if counted - inv.quantity = 0 then db.movements
        else db.movements ++
          [⟨p, w, "adjustment", |counted - inv.quantity|, some "barcode_count", none,
             some ("Stock count adjustment. Old: " ++ toString inv.quantity ++
               ", New: " ++ toString counted), now⟩] } := by
  unfold runScanCount commit
  simp only [scanCount, if_neg hneg, hp, getOrCreateInv, hrow, countUpd]
  simp
  rfl

/-- As `runScanCount_eq_of_found`, for a lazily created row. -/
theorem runScanCount_eq_of_fresh (db : DB) (p w : Nat) (counted : Int)
    (now : Nat) (hneg : ¬ counted < 0) (hp : db.products.contains p = true)
    (hrow : findInv db p w = none) :
    runScanCount p w counted now db = { db with
      inventories :=
        setRow (db.inventories ++ [⟨db.nextInvId, p, w, 0, 10, 1000, now⟩]) p w
          (countUpd counted now),
      nextInvId := db.nextInvId + 1,
      movements :=
        if counted - 0 = 0 then db.movements
        else db.movements ++
          [⟨p, w, "adjustment", |counted - 0|, some "barcode_count", none,
             some ("Stock count adjustment. Old: " ++ toString (0 : Int) ++
               ", New: " ++ toString counted), now⟩] } := by
  unfold runScanCount commit
  simp only [scanCount, if_neg hneg, hp, getOrCreateInv, hrow, countUpd]
  simp
  rfl

/-- A store in which the counted row already holds the counted quantity and
every matching row is a fixed point of the count update is left unchanged
by the count. -/
theorem runScanCount_stable (db1 : DB) (p w : Nat) (counted : Int) (now : Nat)
    (hneg : ¬ counted < 0) (hp : db1.products.contains p = true)
    (j : Inventory) (hfind : findInv db1 p w = some j)
    (hq : j.quantity = counted)
    (hset : setRow db1.inventories p w (countUpd counted now)
      = db1.inventories) :
    runScanCount p w counted now db1 = db1 := by
  rw [runScanCount_eq_of_found db1 p w counted now hneg hp j hfind, hset]
  have hz : counted - j.quantity = 0 := by rw [hq]; ring
  simp only [hz]
  simp

/-- C5 fails as stated: on a (product, warehouse) pair with no StockLevel
row the current quantity is 0, yet counting 0 there is not a no-op on
StockLevel content — `scan_count` lazily creates a persistent row (with the
default reorder and max levels) even though the adjustment is 0 and no
movement is appended. -/
theorem C5_counterexample :
    rowContent dbCatalog 1 1 = none ∧
    qtyOf dbCatalog 1 1 = 0 ∧
    rowContent (runScanCount 1 1 0 0 dbCatalog) 1 1 = some (0, 10, 1000) ∧
    (runScanCount 1 1 0 0 dbCatalog).movements = dbCatalog.movements := by
  decide

/-- C5 (amended): a stock count equal to the current quantity of an
existing row changes no row's persistent content (quantity, reorder level,
max stock level) and appends no movement; repeating the same count is the
same as performing it once; and a negative counted quantity is rejected
with the invalid-argument error. -/
theorem C5_count_noop_idempotent (db : DB) (p w : Nat) (counted : Int)
    (now : Nat) :
    (∀ inv, findInv db p w = some inv → counted = inv.quantity →
      (∀ p' w', rowContent (runScanCount p w counted now db) p' w'
        = rowContent db p' w') ∧
      (runScanCount p w counted now db).movements = db.movements) ∧
    runScanCount p w counted now (runScanCount p w counted now db)
      = runScanCount p w counted now db ∧
    (counted < 0 → scanCount db p w counted now = .error .invalidArgument) := by
  refine ⟨?_, ?_, ?_⟩
  · -- count to the current quantity: content and history untouched
    intro inv hrow hc
    by_cases hneg : counted < 0
    · have h0 : runScanCount p w counted now db = db := by
        unfold runScanCount commit
        simp only [scanCount, if_pos hneg]
      rw [h0]
      exact ⟨fun _ _ => rfl, rfl⟩
    by_cases hp : db.products.contains p
    · rw [runScanCount_eq_of_found db p w counted now hneg hp inv hrow]
      have hz : counted - inv.quantity = 0 := by rw [hc]; ring
      refine ⟨?_, by simp [hz]⟩
      intro p' w'
      unfold rowContent findInv
      show ((setRow db.inventories p w (countUpd counted now)).find?
        (isRow p' w')).map _ = _
      by_cases hpw : p = p' ∧ w = w'
      · obtain ⟨hp1, hw1⟩ := hpw
        subst hp1; subst hw1
        rw [find?_setRow_self _ p w _ (countUpd_pres counted now)]
        unfold findInv at hrow
        rw [hrow]
        simp [countUpd, hc]
      · rw [find?_setRow_other _ p w p' w' _ (countUpd_pres counted now)
          (by tauto)]
    · have h0 : runScanCount p w counted now db = db := by
        unfold runScanCount commit
        simp only [Bool.not_eq_true] at hp
        simp only [scanCount, if_neg hneg, hp]
        simp
      rw [h0]
      exact ⟨fun _ _ => rfl, rfl⟩
  · -- idempotency of the committed state
    by_cases hneg : counted < 0
    · have h0 : runScanCount p w counted now db = db := by
        unfold runScanCount commit
        simp only [scanCount, if_pos hneg]
      rw [h0, h0]
    by_cases hp : db.products.contains p
    · have hcomp : (fun i => countUpd counted now (countUpd counted now i))
          = countUpd counted now := funext (countUpd_idem counted now)
      cases hrow : findInv db p w with
      | some inv =>
        rw [runScanCount_eq_of_found db p w counted now hneg hp inv hrow]
        refine runScanCount_stable _ p w counted now hneg ?_
          (countUpd counted now inv) ?_ rfl ?_
        · exact hp
        · show (setRow db.inventories p w (countUpd counted now)).find?
            (isRow p w) = _
          rw [find?_setRow_self _ p w _ (countUpd_pres counted now)]
          unfold findInv at hrow
          rw [hrow]
          rfl
        · show setRow (setRow db.inventories p w (countUpd counted now)) p w
            (countUpd counted now) = _
          rw [setRow_setRow _ p w _ _ (countUpd_pres counted now), hcomp]
      | none =>
        rw [runScanCount_eq_of_fresh db p w counted now hneg hp hrow]
        refine runScanCount_stable _ p w counted now hneg ?_
          (countUpd counted now ⟨db.nextInvId, p, w, 0, 10, 1000, now⟩) ?_ rfl ?_
        · exact hp
        · show (setRow (db.inventories ++ [⟨db.nextInvId, p, w, 0, 10, 1000, now⟩])
            p w (countUpd counted now)).find? (isRow p w) = _
          rw [find?_setRow_self _ p w _ (countUpd_pres counted now)]
          unfold findInv at hrow
          rw [List.find?_append, hrow]
          simp [isRow]
        · show setRow (setRow (db.inventories ++
            [⟨db.nextInvId, p, w, 0, 10, 1000, now⟩]) p w (countUpd counted now))
            p w (countUpd counted now) = _
          rw [setRow_setRow _ p w _ _ (countUpd_pres counted now), hcomp]
    · have h0 : runScanCount p w counted now db = db := by
        unfold runScanCount commit
        simp only [Bool.not_eq_true] at hp
        simp only [scanCount, if_neg hneg, hp]
        simp
      rw [h0, h0]
  · -- negative counted quantity
    intro hneg
    simp only [scanCount, if_pos hneg]

/-- Witness for C5 at a concrete store: counting 5 where 5 are on hand
changes no content, appends nothing, and is idempotent. -/
theorem C5_witness :
    (∀ p' w', rowContent (runScanCount 1 1 5 9 dbOneRow) p' w'
      = rowContent dbOneRow p' w') ∧
    (runScanCount 1 1 5 9 dbOneRow).movements = dbOneRow.movements ∧
    runScanCount 1 1 5 9 (runScanCount 1 1 5 9 dbOneRow)
      = runScanCount 1 1 5 9 dbOneRow := by
  obtain ⟨h1, h2, _⟩ := C5_count_noop_idempotent dbOneRow 1 1 5 9
  obtain ⟨ha, hb⟩ := h1 ⟨1, 1, 1, 5, 10, 1000, 0⟩ (by decide) (by decide)
  exact ⟨ha, hb, h2⟩

/-- One successful `adjust` changes the pair's quantity by exactly the
delta and appends exactly one movement of magnitude `abs delta` carrying
the caller-supplied type. -/
theorem adjust_ok_effect (db : DB) (p w : Nat) (delta : Int) (mtype : String)
    (refType : Option String) (refId : Option Nat) (notes : Option String)
    (reorder maxStock : Int) (now : Nat) (db' : DB)
    (h : adjustInventory db p w delta mtype refType refId notes reorder maxStock now
      = .ok db') :
    qtyOf db' p w = qtyOf db p w + delta ∧
    movementsFor db' p w = movementsFor db p w ++
      [⟨p, w, mtype, |delta|, refType, refId, notes, now⟩] := by
  simp only [adjustInventory] at h
  by_cases hneg : (getOrCreateInv db p w reorder maxStock now).1.quantity + delta < 0
  · rw [if_pos hneg] at h
    simp at h
  · rw [if_neg hneg] at h
    injection h with h2
    subst h2
    constructor
    · unfold qtyOf findInv
      dsimp only
      rw [find?_setRow_self ((getOrCreateInv db p w reorder maxStock now).2.1)
        p w (fun i =>
          { i with
            quantity := (getOrCreateInv db p w reorder maxStock now).1.quantity + delta,
            lastUpdated := now }) (fun i => ⟨rfl, rfl⟩)]
      cases hrow : findInv db p w with
      | some inv =>
        simp only [getOrCreateInv, hrow]
        unfold findInv at hrow
        rw [hrow]
        simp
      | none =>
        simp only [getOrCreateInv, hrow]
        unfold findInv at hrow
        rw [List.find?_append, hrow]
        simp [isRow]
    · unfold movementsFor
      rw [List.filter_append]
      simp

/-- Over a sequence of successful `adjust` calls whose movement types match
the sign of their deltas, the pair's quantity and the signed movement sum
both advance by the sum of the deltas. -/
theorem runAdjusts_effect (p w : Nat) (calls : List AdjustCall) : ∀ db : DB,
    adjustsSucceed p w db calls = true →
    (∀ c ∈ calls, typeMatchesSign c) →
    qtyOf (runAdjusts p w db calls) p w
      = qtyOf db p w + (calls.map (fun c => c.delta)).sum ∧
    signedSum (runAdjusts p w db calls) p w
      = signedSum db p w + (calls.map (fun c => c.delta)).sum := by
  induction calls with
  | nil =>
    intro db _ _
    simp [runAdjusts]
  | cons c rest ih =>
    intro db hok htypes
    simp only [adjustsSucceed, Bool.and_eq_true] at hok
    obtain ⟨hok1, hokrest⟩ := hok
    cases hres : adjustInventory db p w c.delta c.movementType none none none
        10 1000 c.now with
    | error e =>
      rw [hres] at hok1
      simp [Except.isOk, Except.toBool] at hok1
    | ok db' =>
      have hstep : stepAdjust p w db c = db' := by
        unfold stepAdjust
        rw [hres]
        rfl
      obtain ⟨hq, hm⟩ := adjust_ok_effect db p w c.delta c.movementType none none
        none 10 1000 c.now db' hres
      have hsign : signedSum db' p w = signedSum db p w + c.delta := by
        unfold signedSum
        rw [hm, List.map_append, List.sum_append]
        rcases htypes c (List.mem_cons_self c rest) with ⟨hge, hty⟩ | ⟨hlt, hty⟩
        · simp [signedQty, hty, abs_of_nonneg hge]
        · simp [signedQty, hty, abs_of_neg hlt]
      have hrun : runAdjusts p w db (c :: rest) = runAdjusts p w db' rest := by
        simp only [runAdjusts, List.foldl_cons, hstep]
      rw [hstep] at hokrest
      obtain ⟨ihq, ihs⟩ := ih db' hokrest
        (fun c' hc' => htypes c' (List.mem_cons_of_mem c hc'))
      rw [hrun]
      refine ⟨?_, ?_⟩
      · rw [ihq, hq]
        simp
        ring
      · rw [ihs, hsign]
        simp
        ring

/-- C1 fails as stated: the movement type is the caller-supplied string and
is never inferred from the delta's sign, so one successful adjust of +5
recorded as `out` leaves the pair at quantity 5 while the sign-by-type sum
of the recorded movements is −5. -/
theorem C1_counterexample :
    adjustsSucceed 1 1 dbEmpty [⟨5, "out", 0⟩] = true ∧
    qtyOf (runAdjusts 1 1 dbEmpty [⟨5, "out", 0⟩]) 1 1 = 5 ∧
    signedSum (runAdjusts 1 1 dbEmpty [⟨5, "out", 0⟩]) 1 1 = -5 := by
  decide

/-- C1 (amended): over any sequence of successful adjust calls on a fresh
pair whose movement types are consistent with the sign of their deltas
(`in` for non-negative, `out` for negative), the final quantity is the sum
of the signed deltas and the sign-by-type movement sum reconciles to it. -/
theorem C1_adjust_ledger_reconciles (db : DB) (p w : Nat)
    (calls : List AdjustCall)
    (hfreshInv : findInv db p w = none)
    (hfreshMov : movementsFor db p w = [])
    (hok : adjustsSucceed p w db calls = true)
    (htypes : ∀ c ∈ calls, typeMatchesSign c) :
    qtyOf (runAdjusts p w db calls) p w = (calls.map (fun c => c.delta)).sum ∧
    signedSum (runAdjusts p w db calls) p w
      = qtyOf (runAdjusts p w db calls) p w := by
  obtain ⟨h1, h2⟩ := runAdjusts_effect p w calls db hok htypes
  have hq0 : qtyOf db p w = 0 := by
    unfold qtyOf
    rw [hfreshInv]
  have hs0 : signedSum db p w = 0 := by
    unfold signedSum
    rw [hfreshMov]
    rfl
  rw [h1, h2, hq0, hs0]
  constructor <;> ring

/-- Witness for C1 (amended) at the empty store: an `in +5` followed by an
`out −3` ends at quantity 2 with a reconciling movement history. -/
theorem C1_witness :
    qtyOf (runAdjusts 1 1 dbEmpty [⟨5, "in", 0⟩, ⟨-3, "out", 1⟩]) 1 1
      = (([⟨5, "in", 0⟩, ⟨-3, "out", 1⟩] : List AdjustCall).map
          (fun c => c.delta)).sum ∧
    signedSum (runAdjusts 1 1 dbEmpty [⟨5, "in", 0⟩, ⟨-3, "out", 1⟩]) 1 1
      = qtyOf (runAdjusts 1 1 dbEmpty [⟨5, "in", 0⟩, ⟨-3, "out", 1⟩]) 1 1 :=
  C1_adjust_ledger_reconciles dbEmpty 1 1 [⟨5, "in", 0⟩, ⟨-3, "out", 1⟩]
    (by decide) (by decide) (by decide) (by decide)

/-- Processing one received line never touches the orders table. -/
theorem receiveLine_orders (poId wId : Nat) (onum : String) (now : Nat)
    (db : DB) (line : ReceivedLine) :
    (receiveLine poId wId onum now db line).orders = db.orders := by
  unfold receiveLine
  split
  · rfl
  · split
    · rfl
    · split
      · rfl
      · rfl

/-- Processing one received line never decreases any item's received
quantity. -/
theorem receivedOf_receiveLine_le (poId wId : Nat) (onum : String) (now : Nat)
    (db : DB) (line : ReceivedLine) (iid : Nat) :
    receivedOf db iid ≤ receivedOf (receiveLine poId wId onum now db line) iid := by
  unfold receiveLine
  split
  · exact le_refl _
  next hguard =>
    split
    · exact le_refl _
    next item hit =>
      split
      · exact le_refl _
      next hbelong =>
        have hr : 0 < line.receivedQuantity := by
          simp only [Bool.or_eq_true, not_or, decide_eq_true_eq] at hguard
          omega
        unfold receivedOf findPOItem
        dsimp only
        rw [find?_map_pred _ _ _
          (fun it => by by_cases h : it.id == line.poItemId <;> simp [h])]
        cases hfind : db.poItems.find? (fun it => it.id == iid) with
        | none => simp
        | some it =>
          by_cases hid : it.id = line.poItemId <;> simp [hid] <;> omega

/-- The received-line fold never decreases any item's received quantity. -/
theorem receivedOf_fold_le (poId wId : Nat) (onum : String) (now : Nat)
    (lines : List ReceivedLine) : ∀ (db : DB) (iid : Nat),
    receivedOf db iid
      ≤ receivedOf (lines.foldl (receiveLine poId wId onum now) db) iid := by
  induction lines with
  | nil => intro db iid; exact le_refl _
  | cons line rest ih =>
    intro db iid
    calc receivedOf db iid
        ≤ receivedOf (receiveLine poId wId onum now db line) iid :=
          receivedOf_receiveLine_le poId wId onum now db line iid
      _ ≤ _ := ih (receiveLine poId wId onum now db line) iid

/-- The received-line fold never touches the orders table. -/
theorem orders_fold (poId wId : Nat) (onum : String) (now : Nat)
    (lines : List ReceivedLine) : ∀ db : DB,
    (lines.foldl (receiveLine poId wId onum now) db).orders = db.orders := by
  induction lines with
  | nil => intro db; rfl
  | cons line rest ih =>
    intro db
    rw [List.foldl_cons, ih, receiveLine_orders]

/-- A successful receive call never decreases any item's received
quantity. -/
theorem receive_ok_mono (db : DB) (poId wId : Nat) (lines : List ReceivedLine)
    (now : Nat) (db2 : DB)
    (h : receivePurchaseOrder db poId wId lines now = .ok db2) (iid : Nat) :
    receivedOf db iid ≤ receivedOf db2 iid := by
  simp only [receivePurchaseOrder] at h
  cases hpo : findOrder db poId with
  | none =>
    rw [hpo] at h
    simp at h
  | some po =>
    rw [hpo] at h
    dsimp only at h
    by_cases hst : po.status ≠ "approved" ∧ po.status ≠ "ordered"
    · rw [if_pos hst] at h
      simp at h
    rw [if_neg hst] at h
    by_cases hw : (wId == 0 || lines.isEmpty) = true
    · rw [if_pos hw] at h
      simp at h
    rw [if_neg hw] at h
    split at h <;> injection h with h <;> subst h
    · exact receivedOf_fold_le poId wId po.orderNumber now lines db iid
    · exact receivedOf_fold_le poId wId po.orderNumber now lines db iid

/-- Across any sequence of receive calls, an item's received quantity never
decreases. -/
theorem receivedOf_runReceives_le (calls : List ReceiveCall) : ∀ (db : DB)
    (iid : Nat), receivedOf db iid ≤ receivedOf (runReceives db calls) iid := by
  induction calls with
  | nil => intro db iid; exact le_refl _
  | cons c rest ih =>
    intro db iid
    have h1 : receivedOf db iid ≤ receivedOf (stepReceive db c) iid := by
      unfold stepReceive
      cases hres : receivePurchaseOrder db c.poId c.wId c.lines c.now with
      | error e => exact le_refl _
      | ok db2 => exact receive_ok_mono db c.poId c.wId c.lines c.now db2 hres iid
    calc receivedOf db iid ≤ receivedOf (stepReceive db c) iid := h1
      _ ≤ _ := ih (stepReceive db c) iid

/-- C6: across every sequence of receive calls no item's received quantity
decreases, and a successful receive call ends with status `received`
(stamping the actual delivery) exactly when, after its lines are processed,
every item of the order is received in full; otherwise the status is left
as it was. -/
theorem C6_receive_monotone_and_status (db : DB) (calls : List ReceiveCall)
    (poId wId : Nat) (lines : List ReceivedLine) (now : Nat) (db2 : DB) :
    (∀ iid, receivedOf db iid ≤ receivedOf (runReceives db calls) iid) ∧
    (receivePurchaseOrder db poId wId lines now = .ok db2 →
      (statusOf db2 poId = some "received" ↔
        ∀ it ∈ itemsOf db2 poId, it.quantity ≤ it.receivedQuantity) ∧
      (statusOf db2 poId = some "received" →
        actualDeliveryOf db2 poId = some (some now)) ∧
      (statusOf db2 poId ≠ some "received" →
        statusOf db2 poId = statusOf db poId)) := by
  refine ⟨fun iid => receivedOf_runReceives_le calls db iid, fun h => ?_⟩
  simp only [receivePurchaseOrder] at h
  cases hpo : findOrder db poId with
  | none =>
    rw [hpo] at h
    simp at h
  | some po =>
    rw [hpo] at h
    dsimp only at h
    by_cases hst : po.status ≠ "approved" ∧ po.status ≠ "ordered"
    · rw [if_pos hst] at h
      simp at h
    rw [if_neg hst] at h
    by_cases hw : (wId == 0 || lines.isEmpty) = true
    · rw [if_pos hw] at h
      simp at h
    rw [if_neg hw] at h
    have hid : po.id = poId := by simpa using List.find?_some hpo
    have hords := orders_fold poId wId po.orderNumber now lines db
    by_cases hall : ((itemsOf (lines.foldl (receiveLine poId wId po.orderNumber now) db)
        poId).all (fun it => decide (it.quantity ≤ it.receivedQuantity))) = true
    · rw [if_pos hall] at h
      injection h with h
      subst h
      have hstat : statusOf { lines.foldl (receiveLine poId wId po.orderNumber now) db with
          orders := (lines.foldl (receiveLine poId wId po.orderNumber now) db).orders.map
            (fun o => if o.id == poId then
              { o with status := "received", actualDelivery := some now } else o) }
          poId = some "received" := by
        unfold statusOf findOrder
        dsimp only
        rw [find?_map_pred _ _ _
          (fun o => by by_cases hq : o.id == poId <;> simp [hq])]
        rw [hords]
        unfold findOrder at hpo
        rw [hpo]
        simp [hid]
      refine ⟨⟨fun _ => ?_, fun _ => hstat⟩, fun _ => ?_, fun hne => absurd hstat hne⟩
      · intro it hit
        exact of_decide_eq_true (List.all_eq_true.mp hall it hit)
      · unfold actualDeliveryOf findOrder
        dsimp only
        rw [find?_map_pred _ _ _
          (fun o => by by_cases hq : o.id == poId <;> simp [hq])]
        rw [hords]
        unfold findOrder at hpo
        rw [hpo]
        simp [hid]
    · rw [if_neg hall] at h
      injection h with h
      subst h
      have hstat : statusOf (lines.foldl (receiveLine poId wId po.orderNumber now) db)
          poId = some po.status := by
        unfold statusOf findOrder
        rw [hords]
        unfold findOrder at hpo
        rw [hpo]
        rfl
      have hnr : po.status ≠ "received" := by
        rcases not_and_or.mp hst with hs | hs
        all_goals simp only [not_ne_iff] at hs
        all_goals rw [hs]
        all_goals decide
      refine ⟨⟨fun hrec => ?_, fun hrecvd => ?_⟩, fun hrec => ?_, fun _ => ?_⟩
      · rw [hstat] at hrec
        exact absurd (Option.some.injEq _ _ ▸ hrec) hnr
      · exact absurd
          (List.all_eq_true.mpr (fun it hit => decide_eq_true (hrecvd it hit))) hall
      · rw [hstat] at hrec
        exact absurd (Option.some.injEq _ _ ▸ hrec) hnr
      · rw [hstat]
        unfold statusOf
        rw [hpo]
        rfl

set_option maxRecDepth 8000 in
/-- Witness for C6 at a concrete store: receiving all 10 ordered units of
item 1 keeps received quantities monotone, flips the order to `received`
exactly because every item is fully received, and stamps the delivery. -/
theorem C6_witness :
    receivedOf dbOrder 1
      ≤ receivedOf (runReceives dbOrder [⟨1, 1, [⟨1, 10⟩], 0⟩]) 1 ∧
    (statusOf dbOrderReceived 1 = some "received" ↔
      ∀ it ∈ itemsOf dbOrderReceived 1, it.quantity ≤ it.receivedQuantity) ∧
    (statusOf dbOrderReceived 1 = some "received" →
      actualDeliveryOf dbOrderReceived 1 = some (some 0)) := by
  obtain ⟨h1, h2⟩ := C6_receive_monotone_and_status dbOrder
    [⟨1, 1, [⟨1, 10⟩], 0⟩] 1 1 [⟨1, 10⟩] 0 dbOrderReceived
  obtain ⟨ha, hb, _⟩ := h2 (by with_unfolding_all decide)
  exact ⟨h1 1, ha, hb⟩

/-- A successful item loop of purchase-order creation accumulates exactly
the sum of quantity × unit price, and certifies that every requested item
had a known product id and truthy (nonzero) quantity and unit price. -/
theorem buildItems_ok (products : List Nat) (poId : Nat)
    (items : List NewPOItem) : ∀ (nid : Nat) (pois : List POItem) (total : ℚ),
    buildItems products poId nid items = .ok (pois, total) →
    total = (items.map (fun it => (it.quantity : ℚ) * it.unitPrice)).sum ∧
    ∀ it ∈ items, it.productId ∈ products ∧ it.quantity ≠ 0 ∧
      it.unitPrice ≠ 0 := by
  induction items with
  | nil =>
    intro nid pois total h
    simp only [buildItems] at h
    injection h with h2
    cases h2
    exact ⟨rfl, by simp⟩
  | cons it rest ih =>
    intro nid pois total h
    simp only [buildItems] at h
    by_cases hv : (it.productId == 0 || it.quantity == 0 || it.unitPrice == 0) = true
    · rw [if_pos hv] at h
      simp at h
    rw [if_neg hv] at h
    by_cases hc : (!products.contains it.productId) = true
    · rw [if_pos hc] at h
      simp at h
    rw [if_neg hc] at h
    cases hrest : buildItems products poId (nid + 1) rest with
    | error e =>
      rw [hrest] at h
      simp at h
    | ok pr =>
      obtain ⟨pois1, total1⟩ := pr
      rw [hrest] at h
      injection h with h2
      cases h2
      obtain ⟨ih1, ih2⟩ := ih (nid + 1) pois1 total1 hrest
      refine ⟨by rw [ih1]; simp, ?_⟩
      intro x hx
      rcases List.mem_cons.mp hx with rfl | hx'
      · simp only [Bool.or_eq_true, not_or] at hv
        refine ⟨?_, ?_, ?_⟩
        · simp only [Bool.not_eq_true] at hc
          simpa using hc
        · simpa using hv.1.2
        · simpa using hv.2
      · exact ih2 x hx'

/-- C8 fails as stated: the per-item validation uses Python truthiness
(`not item.get('quantity')`), so a strictly negative quantity is accepted.
With supplier 1 and product 1 known, creating an order whose single item
has quantity −5 at unit price 10 succeeds, storing total −50 instead of
failing with the invalid-argument error. -/
theorem C8_counterexample :
    (createPurchaseOrder dbCatalog 1 [⟨1, -5, 10⟩] "PO-NEG").isOk = true ∧
    (commit dbCatalog
      (createPurchaseOrder dbCatalog 1 [⟨1, -5, 10⟩] "PO-NEG")).orders.map
      (fun o => o.totalAmount) = [-50] := by
  with_unfolding_all decide

/-- The item loop fails on the first offending item: when every earlier
item passes both checks, an item with a zero (falsy) product id, quantity
or unit price yields the invalid-argument error, and an item with nonzero
fields but an unknown product id yields the not-found error. -/
theorem buildItems_error (products : List Nat) (poId : Nat)
    (pre : List NewPOItem) (it : NewPOItem) (rest : List NewPOItem) :
    ∀ nid : Nat,
    (∀ x ∈ pre, (x.productId ≠ 0 ∧ x.quantity ≠ 0 ∧ x.unitPrice ≠ 0) ∧
      x.productId ∈ products) →
    ((it.productId = 0 ∨ it.quantity = 0 ∨ it.unitPrice = 0) →
      buildItems products poId nid (pre ++ it :: rest)
        = .error .invalidArgument) ∧
    ((it.productId ≠ 0 ∧ it.quantity ≠ 0 ∧ it.unitPrice ≠ 0) →
      ¬ it.productId ∈ products →
      buildItems products poId nid (pre ++ it :: rest) = .error .notFound) := by
  induction pre with
  | nil =>
    intro nid _
    constructor
    · intro hz
      simp only [List.nil_append, buildItems]
      rw [if_pos (by rcases hz with h | h | h <;> simp [h])]
    · intro hok hnot
      simp only [List.nil_append, buildItems]
      rw [if_neg (by simp [hok.1, hok.2.1, hok.2.2]),
        if_pos (by simp [hnot])]
  | cons x pre ih =>
    intro nid hpre
    obtain ⟨hxf, hxp⟩ := hpre x (List.mem_cons_self x pre)
    obtain ⟨ih1, ih2⟩ := ih (nid + 1)
      (fun y hy => hpre y (List.mem_cons_of_mem x hy))
    constructor
    · intro hz
      simp only [List.cons_append, buildItems, List.append_eq]
      rw [if_neg (by simp [hxf.1, hxf.2.1, hxf.2.2]),
        if_neg (by simp [hxp]), ih1 hz]
    · intro hok hnot
      simp only [List.cons_append, buildItems, List.append_eq]
      rw [if_neg (by simp [hxf.1, hxf.2.1, hxf.2.2]),
        if_neg (by simp [hxp]), ih2 hok hnot]

/-- C8 (amended): creation fails with the invalid-argument error on an
empty items list, fails with not-found on an unknown (nonzero) supplier,
and the first offending item (in list order, with all earlier items valid)
determines the item-level error: invalid-argument when its product id,
quantity or unit price is zero (falsy), not-found when its fields are
nonzero but its product id is unknown; on success every item had a known
product and nonzero (rather than non-positive) quantity and unit price,
and the stored order is `pending` with total equal to the sum of
quantity × unit price. -/
theorem C8_create_po_validation (db : DB) (supplierId : Nat)
    (items : List NewPOItem) (orderNumber : String) (db' : DB) :
    (items = [] →
      createPurchaseOrder db supplierId items orderNumber
        = .error .invalidArgument) ∧
    (supplierId ≠ 0 → items ≠ [] → ¬ supplierId ∈ db.suppliers →
      createPurchaseOrder db supplierId items orderNumber = .error .notFound) ∧
    (∀ pre it rest, items = pre ++ it :: rest →
      supplierId ≠ 0 → supplierId ∈ db.suppliers →
      (∀ x ∈ pre, (x.productId ≠ 0 ∧ x.quantity ≠ 0 ∧ x.unitPrice ≠ 0) ∧
        x.productId ∈ db.products) →
      ((it.productId = 0 ∨ it.quantity = 0 ∨ it.unitPrice = 0) →
        createPurchaseOrder db supplierId items orderNumber
          = .error .invalidArgument) ∧
      ((it.productId ≠ 0 ∧ it.quantity ≠ 0 ∧ it.unitPrice ≠ 0) →
        ¬ it.productId ∈ db.products →
        createPurchaseOrder db supplierId items orderNumber
          = .error .notFound)) ∧
    (createPurchaseOrder db supplierId items orderNumber = .ok db' →
      supplierId ∈ db.suppliers ∧
      (∀ it ∈ items, it.productId ∈ db.products ∧ it.quantity ≠ 0 ∧
        it.unitPrice ≠ 0) ∧
      ∃ po : PurchaseOrder, db'.orders = db.orders ++ [po] ∧
        po.status = "pending" ∧
        po.totalAmount
          = (items.map (fun it => (it.quantity : ℚ) * it.unitPrice)).sum) := by
  refine ⟨?_, ?_, ?_, ?_⟩
  · intro h
    subst h
    simp [createPurchaseOrder]
  · intro h0 hne hmem
    unfold createPurchaseOrder
    rw [if_neg (by simp [h0, hne])]
    rw [if_pos (by simpa using hmem)]
  · intro pre it rest heq h0 hsup hpre
    subst heq
    obtain ⟨ih1, ih2⟩ := buildItems_error db.products db.nextPoId pre it rest
      db.nextPoItemId hpre
    constructor
    · intro hz
      unfold createPurchaseOrder
      rw [if_neg (by simp [h0]), if_neg (by simp [hsup]), ih1 hz]
    · intro hok hnot
      unfold createPurchaseOrder
      rw [if_neg (by simp [h0]), if_neg (by simp [hsup]), ih2 hok hnot]
  · intro h
    simp only [createPurchaseOrder] at h
    by_cases h1 : (supplierId == 0 || items.isEmpty) = true
    · rw [if_pos h1] at h
      simp at h
    rw [if_neg h1] at h
    by_cases h2 : (!db.suppliers.contains supplierId) = true
    · rw [if_pos h2] at h
      simp at h
    rw [if_neg h2] at h
    cases hb : buildItems db.products db.nextPoId db.nextPoItemId items with
    | error e =>
      rw [hb] at h
      simp at h
    | ok pr =>
      obtain ⟨pois, total⟩ := pr
      rw [hb] at h
      injection h with h3
      subst h3
      obtain ⟨ht, hval⟩ := buildItems_ok db.products db.nextPoId items
        db.nextPoItemId pois total hb
      refine ⟨?_, hval, ?_⟩
      · simp only [Bool.not_eq_true] at h2
        simpa using h2
      · exact ⟨_, rfl, rfl, ht⟩

/-- Witness for C8 (amended) at concrete stores: a second item with zero
quantity is rejected with invalid-argument, a single item with an unknown
product id is rejected with not-found, and a valid creation stores a
pending order totalling 2 × 3. -/
theorem C8_witness :
    createPurchaseOrder dbCatalog 1 [⟨1, 2, 3⟩, ⟨1, 0, 3⟩] "PO-Z"
      = .error .invalidArgument ∧
    createPurchaseOrder dbCatalog 1 [⟨2, 4, 3⟩] "PO-U" = .error .notFound ∧
    1 ∈ dbCatalog.suppliers ∧
    (∀ it ∈ ([⟨1, 2, 3⟩] : List NewPOItem),
      it.productId ∈ dbCatalog.products ∧ it.quantity ≠ 0 ∧ it.unitPrice ≠ 0) ∧
    ∃ po : PurchaseOrder, dbCatalogPO.orders = dbCatalog.orders ++ [po] ∧
      po.status = "pending" ∧
      po.totalAmount = (([⟨1, 2, 3⟩] : List NewPOItem).map
        (fun it => (it.quantity : ℚ) * it.unitPrice)).sum := by
  obtain ⟨_, _, hz, _⟩ := C8_create_po_validation dbCatalog 1
    [⟨1, 2, 3⟩, ⟨1, 0, 3⟩] "PO-Z" dbCatalogPO
  have e1 := (hz [⟨1, 2, 3⟩] ⟨1, 0, 3⟩ [] rfl (by decide) (by decide)
    (by with_unfolding_all decide)).1 (by with_unfolding_all decide)
  obtain ⟨_, _, hu, _⟩ := C8_create_po_validation dbCatalog 1
    [⟨2, 4, 3⟩] "PO-U" dbCatalogPO
  have e2 := (hu [] ⟨2, 4, 3⟩ [] rfl (by decide) (by decide) (by simp)).2
    (by with_unfolding_all decide) (by decide)
  obtain ⟨_, _, _, h4⟩ := C8_create_po_validation dbCatalog 1 [⟨1, 2, 3⟩]
    "PO-W8" dbCatalogPO
  obtain ⟨ha, hb, hc⟩ := h4 (by with_unfolding_all decide)
  exact ⟨e1, e2, ha, hb, hc⟩

/-- Summing a constant over a list. -/
theorem sum_map_const_int {α : Type} (l : List α) (c : ℤ) :
    (l.map (fun _ => c)).sum = l.length * c := by
  induction l with
  | nil => simp
  | cons a l ih => simp [ih]; ring

/-- Summing the movement quantity over the movement × inventory join
multiplies the plain movement total by the number of inventory rows. -/
theorem join_sum_fst (ms : List StockMovement) (is' : List Inventory) :
    ((ms.flatMap (fun m => is'.map (fun i => (m, i)))).map
      (fun mi => mi.1.quantity)).sum
    = (is'.length : ℤ) * ((ms.map (fun m => m.quantity)).sum) := by
  induction ms with
  | nil => simp
  | cons m ms ih =>
    simp only [List.flatMap_cons, List.map_append, List.sum_append, ih,
      List.map_map, List.map_cons, List.sum_cons]
    have : (is'.map ((fun mi => mi.1.quantity) ∘ (fun i => (m, i)))).sum
        = (is'.length : ℤ) * m.quantity :=
      sum_map_const_int is' m.quantity
    rw [this]
    ring

/-- Summing the inventory quantity over the join multiplies the plain
inventory total by the number of qualifying movements. -/
theorem join_sum_snd (ms : List StockMovement) (is' : List Inventory) :
    ((ms.flatMap (fun m => is'.map (fun i => (m, i)))).map
      (fun mi => (mi.2.quantity : ℚ))).sum
    = (ms.length : ℚ) * ((is'.map (fun i => (i.quantity : ℚ))).sum) := by
  induction ms with
  | nil => simp
  | cons m ms ih =>
    simp only [List.flatMap_cons, List.map_append, List.sum_append, ih,
      List.length_cons]
    have : ((is'.map (fun i => (m, i))).map (fun mi => (mi.2.quantity : ℚ))).sum
        = (is'.map (fun i => (i.quantity : ℚ))).sum := by
      rw [List.map_map]
      rfl
    rw [this]
    push_cast
    ring

/-- The join has one row per movement–inventory pair. -/
theorem join_length (ms : List StockMovement) (is' : List Inventory) :
    (ms.flatMap (fun m => is'.map (fun i => (m, i)))).length
    = ms.length * is'.length := by
  induction ms with
  | nil => simp
  | cons m ms ih => simp [ih]; ring

/-- C9 fails as stated: the turnover query joins every qualifying movement
with every inventory row of the product, so with two inventory rows
(quantity 10 each) and one `out` movement of 5, the report's rate is
(5 + 5) / 10 = 1 while the spec's formula total / average gives
5 / 10 = 1 / 2. -/
theorem C9_counterexample :
    (inventoryTurnover dbTwoWarehouses 0).map (fun r => r.turnoverRate) = [1] ∧
    claimedTurnoverRate dbTwoWarehouses 0 1 = 1 / 2 := by
  with_unfolding_all decide

/-- C9 (amended): the report is sorted in descending order of the (rounded)
turnover rate, and each emitted row carries total movement equal to the
number of the product's inventory rows times its windowed `out` total,
average inventory equal to the plain average of the product's inventory-row
quantities, and rate total / average (0 when the average is not positive),
rounded to two decimals. -/
theorem C9_turnover_report (db : DB) (start : Nat) :
    List.Pairwise (fun a b : TurnoverRow => b.turnoverRate ≤ a.turnoverRate)
      (inventoryTurnover db start) ∧
    (∀ p row, turnoverRow db start p = some row →
      row.productId = p ∧
      row.totalMovement = ((invRowsOf db p).length : ℤ) *
        ((outMovements db start p).map (fun m => m.quantity)).sum ∧
      row.avgInventory = ((invRowsOf db p).map (fun i => (i.quantity : ℚ))).sum
        / ((invRowsOf db p).length : ℚ) ∧
      row.turnoverRate = round2 (if 0 < row.avgInventory then
        (row.totalMovement : ℚ) / row.avgInventory else 0)) := by
  constructor
  · unfold inventoryTurnover
    have hs := @List.sorted_mergeSort TurnoverRow
      (fun a b : TurnoverRow => decide (b.turnoverRate ≤ a.turnoverRate))
      (fun a b c h1 h2 => by
        simp only [decide_eq_true_eq] at h1 h2 ⊢
        exact le_trans h2 h1)
      (fun a b => by
        simp only [Bool.or_eq_true, decide_eq_true_eq]
        exact le_total b.turnoverRate a.turnoverRate)
      (db.products.filterMap (turnoverRow db start))
    exact hs.imp (fun h => by simpa using h)
  · intro p row h
    simp only [turnoverRow] at h
    by_cases hne : ((outMovements db start p).flatMap
      (fun m => (invRowsOf db p).map (fun i => (m, i)))).isEmpty = true
    · rw [if_pos hne] at h
      simp at h
    rw [if_neg hne] at h
    injection h with h2
    subst h2
    have hpairs : ((outMovements db start p).flatMap
        (fun m => (invRowsOf db p).map (fun i => (m, i)))) ≠ [] := by
      intro hz
      rw [hz] at hne
      exact hne rfl
    have hlen : (outMovements db start p).length * (invRowsOf db p).length ≠ 0 := by
      rw [← join_length]
      intro hz
      exact hpairs (List.eq_nil_of_length_eq_zero hz)
    have hm0 : ((outMovements db start p).length : ℚ) ≠ 0 := by
      have : (outMovements db start p).length ≠ 0 := by
        intro hz
        exact hlen (by rw [hz, Nat.zero_mul])
      exact_mod_cast this
    refine ⟨rfl, join_sum_fst _ _, ?_, rfl⟩
    show ((((outMovements db start p).flatMap
        (fun m => (invRowsOf db p).map (fun i => (m, i)))).map
        (fun mi => (mi.2.quantity : ℚ))).sum) / _ = _
    rw [join_sum_snd, join_length]
    push_cast
    rw [mul_div_mul_left _ _ hm0]

/-- Witness for C9 (amended) at the two-warehouse store: the report is
sorted and its single row carries total 2 × 5, average 10 and rate 1. -/
theorem C9_witness :
    List.Pairwise (fun a b : TurnoverRow => b.turnoverRate ≤ a.turnoverRate)
      (inventoryTurnover dbTwoWarehouses 0) ∧
    (⟨1, 10, 10, 1⟩ : TurnoverRow).totalMovement
      = ((invRowsOf dbTwoWarehouses 1).length : ℤ) *
        ((outMovements dbTwoWarehouses 0 1).map (fun m => m.quantity)).sum ∧
    (⟨1, 10, 10, 1⟩ : TurnoverRow).avgInventory
      = ((invRowsOf dbTwoWarehouses 1).map (fun i => (i.quantity : ℚ))).sum
        / ((invRowsOf dbTwoWarehouses 1).length : ℚ) ∧
    (⟨1, 10, 10, 1⟩ : TurnoverRow).turnoverRate
      = round2 (if 0 < (⟨1, 10, 10, 1⟩ : TurnoverRow).avgInventory then
        ((⟨1, 10, 10, 1⟩ : TurnoverRow).totalMovement : ℚ) /
          (⟨1, 10, 10, 1⟩ : TurnoverRow).avgInventory else 0) := by
  obtain ⟨h1, h2⟩ := C9_turnover_report dbTwoWarehouses 0
  obtain ⟨_, hb, hc, hd⟩ := h2 1 ⟨1, 10, 10, 1⟩ (by with_unfolding_all decide)
  exact ⟨h1, hb, hc, hd⟩

end Ledger
